import Mathlib

/-!
Verification development for the standalone audio/video muxer
(`muxer_app_bundled.py`).  The Python code is shallowly embedded: each
definition below mirrors one function or inline code block of the source,
with Python floats modelled as exact rationals (`ℚ`), Python strings as
`String`/`List Char`, and the Qt objects (progress dialog value, process
state) as explicit values threaded through the functions.
-/

namespace Muxer

/-! ## Python string primitives -/

/-- Characters treated as whitespace by Python's `str.strip()`
(the ASCII subset, which is all that can occur in the strings handled here). -/
def pyWhitespace (c : Char) : Bool :=
  c = ' ' || c = '\t' || c = '\n' || c = '\r' || c = '\x0b' || c = '\x0c'

/-- Python `str.strip()` on a character list: drop whitespace from both ends. -/
def pyStripL (l : List Char) : List Char :=
  ((l.dropWhile pyWhitespace).reverse.dropWhile pyWhitespace).reverse

/-- Python `str.strip()`. -/
def pyStrip (s : String) : String := ⟨pyStripL s.data⟩

/-- Python `str.lower()` (ASCII case folding, as in the file names handled). -/
def pyLower (s : String) : String := ⟨s.data.map Char.toLower⟩

/-- Python `str.endswith(suffix)`. -/
def pyEndsWith (s suffix : String) : Bool := suffix.data.isSuffixOf s.data

/-- Python `needle in hay` substring test. -/
def containsSub (needle : List Char) : List Char → Bool
  | [] => needle.isEmpty
  | c :: t => needle.isPrefixOf (c :: t) || containsSub needle t

/-- Index of the last occurrence of `c` in the list (Python `str.rfind`),
`none` when absent. -/
def lastIdxOf (c : Char) : List Char → Option ℕ
  | [] => none
  | x :: xs =>
    match lastIdxOf c xs with
    | some i => some (i + 1)
    | none => if x = c then some 0 else none

/-! ## `os.path` primitives (POSIX semantics) -/

/-- Embeds `os.path.basename`: everything after the last `/`. -/
def basename (s : String) : String :=
  ⟨(s.data.reverse.takeWhile (fun c => c != '/')).reverse⟩

/-- Embeds `os.path.dirname`: the part before the last `/` (keeping a root slash,
dropping other trailing slashes), empty when there is no `/`. -/
def dirname (s : String) : String :=
  match lastIdxOf '/' s.data with
  | none => ""
  | some i =>
    let head := s.data.take (i + 1)
    if head ≠ [] ∧ head.any (fun c => c != '/') then
      ⟨(head.reverse.dropWhile (fun c => c == '/')).reverse⟩
    else ⟨head⟩

/-- The stem part of `os.path.splitext`: drop the extension starting at the
last dot, provided that dot comes after the last `/` and some non-dot
character stands between them (so that purely dotted names keep their dots). -/
def splitextStem (s : String) : String :=
  match lastIdxOf '.' s.data with
  | none => s
  | some di =>
    let fi : ℕ := match lastIdxOf '/' s.data with
      | none => 0
      | some si => si + 1
    if fi ≤ di ∧ ((List.range di).any
        (fun j => fi ≤ j ∧ s.data.getD j '.' ≠ '.')) then
      ⟨s.data.take di⟩
    else s

/-- Embeds `os.path.join` on two components (POSIX): an absolute second component
wins; otherwise a `/` separator is inserted unless already present. -/
def joinPath (a b : String) : String :=
  if b.data.head? = some '/' then b
  else if a = "" ∨ a.data.getLast? = some '/' then ⟨a.data ++ b.data⟩
  else ⟨a.data ++ '/' :: b.data⟩

/-! ## ProgressParser: `re.search(r"time=(\d+):(\d+):(\d+\.\d+)", data)` -/

/-- Greedy run of decimal digits, as the regex token `\d+` takes it:
the maximal digit prefix and the rest. -/
def takeDigits : List Char → List Char × List Char
  | [] => ([], [])
  | c :: cs =>
    if c.isDigit then
      let p := takeDigits cs
      (c :: p.1, p.2)
    else ([], c :: cs)

/-- Numeric value of a digit run. -/
def digitsToNat (ds : List Char) : ℕ :=
  ds.foldl (fun acc c => 10 * acc + (c.toNat - '0'.toNat)) 0

/-- Value of a digit run read as a decimal fraction (the part after `.`). -/
def fracValue (ds : List Char) : ℚ :=
  (digitsToNat ds : ℚ) / (10 : ℚ) ^ ds.length

/-- Match the regex `time=(\d+):(\d+):(\d+\.\d+)` anchored at the head of the
list, returning the captured hours, minutes and (fractional) seconds.  Since
`:` and `.` are not digits, the greedy `\d+` runs of `takeDigits` coincide
with the regex's backtracking semantics here. -/
def matchTimeHere (cs : List Char) : Option (ℕ × ℕ × ℚ) :=
  match cs with
  | 't' :: 'i' :: 'm' :: 'e' :: '=' :: r0 =>
    let h := (takeDigits r0).1
    if h = [] then none else
    match (takeDigits r0).2 with
    | ':' :: r2 =>
      let m := (takeDigits r2).1
      if m = [] then none else
      match (takeDigits r2).2 with
      | ':' :: r4 =>
        let s := (takeDigits r4).1
        if s = [] then none else
        match (takeDigits r4).2 with
        | '.' :: r6 =>
          let f := (takeDigits r6).1
          if f = [] then none else
          some (digitsToNat h, digitsToNat m, (digitsToNat s : ℚ) + fracValue f)
        | _ => none
      | _ => none
    | _ => none
  | _ => none

/-- Embeds `re.search`: try the pattern at every start position, first match wins. -/
def searchTime : List Char → Option (ℕ × ℕ × ℚ)
  | [] => none
  | c :: cs =>
    match matchTimeHere (c :: cs) with
    | some t => some t
    | none => searchTime cs

/-- Elapsed seconds extracted from a chunk, when a timestamp parses:
`int(h) * 3600 + int(m) * 60 + float(s)`. -/
def elapsedOf (data : String) : Option ℚ :=
  match searchTime data.data with
  | some (h, m, s) => some ((h : ℚ) * 3600 + (m : ℚ) * 60 + s)
  | none => none

/-! ## MuxJobController progress handling -/

/-- Python `int()` on a rational: truncation toward zero
(`int` of a nonnegative float is its floor). -/
def pyInt (q : ℚ) : ℤ := q.num.tdiv q.den

/-- Embeds `MuxerApp.update_progress`, as a function of the probed total duration,
the progress dialog's current value and the newly read stderr chunk,
returning the dialog's value afterward.  The dialog is assumed present
(it exists for the whole life of the child process). -/
def update_progress (total_duration : ℚ) (val : ℤ) (data : String) : ℤ :=
  match elapsedOf data with
  | some current =>
    if 0 < total_duration then
      min (pyInt (current / total_duration * 100)) 100
    else if containsSub "frame=".data data.data then
      if val < 95 then val + 1 else val
    else val
  | none =>
    if containsSub "frame=".data data.data then
      if val < 95 then val + 1 else val
    else val

/-- Dialog values observed after each successive stderr chunk. -/
def progressTrace (total_duration : ℚ) (val : ℤ) : List String → List ℤ
  | [] => []
  | c :: cs =>
    let v := update_progress total_duration val c
    v :: progressTrace total_duration v cs

/-! ## DurationProbe: `MuxerApp.get_total_duration` -/

/-- Outcome of `subprocess.run` on the ffprobe command: exit code and the
captured standard output text. -/
structure ProcResult where
  returncode : ℤ
  stdout : String

/-- Digits of a character list, `none` when any character is not a digit
or the list is empty. -/
def parseDigits (l : List Char) : Option ℕ :=
  if l ≠ [] ∧ l.all Char.isDigit then some (digitsToNat l) else none

/-- Python `float()` on the plain decimal literals ffprobe emits
(optional sign, digits, optional `.` and fraction digits); any other text
makes `float()` raise `ValueError`, modelled as `none`. -/
def parsePyFloat (s : String) : Option ℚ :=
  let core : List Char → Option ℚ := fun l =>
    match lastIdxOf '.' l with
    | none => (parseDigits l).map (fun n => (n : ℚ))
    | some i =>
      match parseDigits (l.take i), parseDigits (l.drop (i + 1)) with
      | some n, some f =>
        some ((n : ℚ) + (f : ℚ) / (10 : ℚ) ^ (l.drop (i + 1)).length)
      | _, _ => none
  match s.data with
  | '-' :: rest => (core rest).map (fun q => -q)
  | '+' :: rest => core rest
  | l => core l

/-- Embeds `MuxerApp.get_total_duration`.  The external call is abstracted as
its observable result: `none` for a spawn failure (the raised exception is
caught by the blanket `except`), `some res` for a completed run.  The body
mirrors `float(result.stdout.strip()) if result.returncode == 0 else 0`,
with a `float()` parse failure likewise caught and turned into `0`. -/
def get_total_duration (result : Option ProcResult) : ℚ :=
  match result with
  | none => 0
  | some res =>
    if res.returncode = 0 then
      match parsePyFloat (pyStrip res.stdout) with
      | some q => q
      | none => 0
    else 0

/-! ## InputSelection / OutputPathResolver state

The relevant slice of the `MuxerApp` widget state: the selected paths, the
text of the output-name field, the "save to same location as video" checkbox
and the resolved output path. -/

/-- Mutable fields of `MuxerApp` that the selection and output-path logic
reads and writes. -/
structure AppState where
  video_path : String
  audio_path : String
  output_path : String
  output_name : String
  save_toggle : Bool
  last_video_dir : String
deriving DecidableEq, Repr

/-- Default output file name derived from a video path:
`os.path.splitext(os.path.basename(path))[0] + "_mux.mp4"`. -/
def default_output_name (videoPath : String) : String :=
  ⟨(splitextStem (basename videoPath)).data ++ "_mux.mp4".data⟩

/-- Embeds `MuxerApp.update_default_output_path`: when a video is selected,
join its directory with the stripped name-field text (or the derived default
when that is empty); otherwise clear the output path. -/
def update_default_output_path (st : AppState) : AppState :=
  if st.video_path ≠ "" then
    let base := pyStrip st.output_name
    let base := if base = "" then default_output_name st.video_path else base
    { st with output_path := joinPath (dirname st.video_path) base }
  else
    { st with output_path := "" }

/-- Embeds `MuxerApp.set_video_path`: record the path and its directory,
replace the name field by the fresh default when it is empty or ends with
`_mux.mp4`, and re-derive the output path only in "save beside video" mode.
(The `setText` signal cascade re-runs `update_default_output_path` in that
mode, which the final step repeats idempotently, so the net effect is as
written here.) -/
def set_video_path (st : AppState) (path : String) : AppState :=
  let st1 := { st with video_path := path, last_video_dir := dirname path }
  let defaultName := default_output_name path
  let st2 :=
    if st1.output_name = "" ∨ pyEndsWith st1.output_name "_mux.mp4" then
      { st1 with output_name := defaultName }
    else st1
  if st2.save_toggle then update_default_output_path st2 else st2

/-- Embeds `MuxerApp.update_output_name` (the name field's change handler):
store the new text, then re-derive the output path only when saving beside
the video with a video selected. -/
def update_output_name (st : AppState) (text : String) : AppState :=
  let st1 := { st with output_name := text }
  if st1.save_toggle ∧ st1.video_path ≠ "" then update_default_output_path st1
  else st1

/-- Embeds `MuxerApp.select_output`: the save dialog either returns a chosen
path, which becomes the output path, or is dismissed, leaving state alone. -/
def select_output (st : AppState) (chosen : Option String) : AppState :=
  match chosen with
  | some p => { st with output_path := p }
  | none => st

/-- Output path a mux run would use, as computed at the top of
`MuxerApp.mux_files`: in "save beside video" mode the default path is
re-derived first, otherwise the stored path is used as is. -/
def mux_output_path (st : AppState) : String :=
  (if st.save_toggle then update_default_output_path st else st).output_path

/-! ## Drag-and-drop input validation -/

/-- Accepted video extensions (`DragDropWidget(..., (".mp4", ".mov"))`). -/
def accepted_video_exts : List String := [".mp4", ".mov"]

/-- Embeds the `dropEvent` filter `f.lower().endswith(self.filter_exts)`. -/
def hasAllowedExt (exts : List String) (f : String) : Bool :=
  exts.any (fun e => pyEndsWith (pyLower f) e)

/-- Embeds `DragDropWidget.dropEvent` combined with
`MuxerApp.handle_video_drop`: keep the dropped files with an accepted
extension; when any remain, the first one is handed to `set_video_path`,
otherwise the state is untouched (only an "Invalid file type" label shows).
No file-system check of any kind is performed. -/
def drop_set_video (st : AppState) (files : List String) : AppState :=
  match (files.filter (hasAllowedExt accepted_video_exts)).head? with
  | some f => set_video_path st f
  | none => st

/-! ## Process lifecycle: cancellation and completion -/

/-- State of the `QProcess` child, as `QProcess.state()` reports it. -/
inductive ProcState where
  | notRunning
  | starting
  | running
deriving DecidableEq, Repr

/-- Terminal outcomes of a mux job.  The spec's outcome space: the code's
`process_finished` chooses between the first two; `cancelled` exists in the
type so the spec's claimed outcome is expressible. -/
inductive Outcome where
  | succeeded (path : String)
  | failed (err : String)
  | cancelled
deriving DecidableEq, Repr

/-- Embeds `MuxerApp.cancel_mux`: when the child is not already stopped, it
is killed (its state becomes `notRunning`) and the "Muxing was cancelled"
notification is shown (the returned flag). -/
def cancel_mux (st : ProcState) : ProcState × Bool :=
  if st ≠ ProcState.notRunning then (ProcState.notRunning, true)
  else (st, false)

/-- Terminal outcome chosen by `MuxerApp.process_finished` from the child's
exit code: the success dialog with the output path on exit code `0`, the
"FFmpeg failed" dialog with the captured stderr text otherwise.  A killed
child reports a nonzero exit code. -/
def terminalOutcome (exitCode : ℤ) (errText outPath : String) : Outcome :=
  if exitCode = 0 then Outcome.succeeded outPath else Outcome.failed errText

/-- View of the state after `MuxerApp.process_finished` ran. -/
structure FinishedView where
  progressValue : ℤ
  outcome : Outcome
deriving DecidableEq, Repr

/-- Embeds `MuxerApp.process_finished`: when the progress dialog exists its
value is set to `100` before the exit code is even inspected; then the
terminal outcome is chosen from the exit code. -/
def process_finished (hasDialog : Bool) (oldVal exitCode : ℤ)
    (errText outPath : String) : FinishedView :=
  { progressValue := if hasDialog then 100 else oldVal
    outcome := terminalOutcome exitCode errText outPath }

/-! ## Arithmetic bridge lemmas -/

/-- Python `int()` agrees with the floor on nonnegative rationals. -/
lemma pyInt_eq_floor {q : ℚ} (h : 0 ≤ q) : pyInt q = ⌊q⌋ := by
  rw [pyInt, Rat.floor_def, Int.tdiv_eq_ediv (Rat.num_nonneg.mpr h)
    (Int.ofNat_nonneg _)]

/-- Python `int()` of a nonnegative rational is nonnegative. -/
lemma pyInt_nonneg {q : ℚ} (h : 0 ≤ q) : 0 ≤ pyInt q :=
  Int.tdiv_nonneg (Rat.num_nonneg.mpr h) (Int.ofNat_nonneg _)

/-- Python `int()` is monotone on nonnegative rationals. -/
lemma pyInt_mono {a b : ℚ} (ha : 0 ≤ a) (hab : a ≤ b) :
    pyInt a ≤ pyInt b := by
  rw [pyInt_eq_floor ha, pyInt_eq_floor (ha.trans hab)]
  exact Int.floor_le_floor hab

/-! ## Parser facts -/

/-- A decimal fraction is nonnegative. -/
lemma fracValue_nonneg (ds : List Char) : 0 ≤ fracValue ds := by
  unfold fracValue
  positivity

/-- Seconds captured by the anchored timestamp match are nonnegative. -/
lemma matchTimeHere_nonneg {l : List Char} {h m : ℕ} {s : ℚ}
    (hm : matchTimeHere l = some (h, m, s)) : 0 ≤ s := by
  unfold matchTimeHere at hm
  repeat' split at hm
  all_goals simp_all
  obtain ⟨-, -, -, -, -, -, hs⟩ := hm
  rw [← hs]
  exact add_nonneg (Nat.cast_nonneg _) (fracValue_nonneg _)

/-- Seconds found anywhere in a chunk are nonnegative. -/
lemma searchTime_nonneg {l : List Char} {h m : ℕ} {s : ℚ}
    (hm : searchTime l = some (h, m, s)) : 0 ≤ s := by
  induction l with
  | nil => simp [searchTime] at hm
  | cons c cs ih =>
    rw [searchTime] at hm
    split at hm
    · cases hm
      exact matchTimeHere_nonneg ‹_›
    · exact ih hm

/-- Elapsed times extracted from a chunk are nonnegative. -/
lemma elapsedOf_nonneg {data : String} {t : ℚ}
    (ht : elapsedOf data = some t) : 0 ≤ t := by
  unfold elapsedOf at ht
  split at ht
  · cases ht
    have := searchTime_nonneg ‹_›
    positivity
  · cases ht

/-! ## Branch lemmas for `update_progress` -/

/-- Behaviour of `update_progress` on a chunk with a parsed timestamp while
the duration is known. -/
lemma update_progress_time {d t : ℚ} {data : String} (val : ℤ)
    (ht : elapsedOf data = some t) (hd : 0 < d) :
    update_progress d val data = min (pyInt (t / d * 100)) 100 := by
  unfold update_progress
  rw [ht]
  simp [hd]

/-- Behaviour of `update_progress` under the unknown-duration sentinel:
only the heartbeat policy applies, whatever the chunk contains. -/
lemma update_progress_zero (val : ℤ) (data : String) :
    update_progress 0 val data =
      if containsSub "frame=".data data.data then
        if val < 95 then val + 1 else val
      else val := by
  unfold update_progress
  cases ht : elapsedOf data <;> simp

/-- Behaviour of `update_progress` on a chunk with no parsable timestamp:
the heartbeat policy, whatever the duration. -/
lemma update_progress_none {d : ℚ} {data : String} (val : ℤ)
    (ht : elapsedOf data = none) :
    update_progress d val data =
      if containsSub "frame=".data data.data then
        if val < 95 then val + 1 else val
      else val := by
  unfold update_progress
  rw [ht]

/-- Time-derived percent is monotone in the elapsed time. -/
lemma timePercent_mono {d t t' : ℚ} (hd : 0 < d) (h0 : 0 ≤ t) (h : t ≤ t') :
    min (pyInt (t / d * 100)) 100 ≤ min (pyInt (t' / d * 100)) 100 := by
  have harg : t / d * 100 ≤ t' / d * 100 := by gcongr
  exact min_le_min (pyInt_mono (by positivity) harg) le_rfl

/-- With a known duration, one step keeps the dialog value inside `[0, 100]`. -/
lemma update_progress_mem {d : ℚ} (hd : 0 < d) {val : ℤ}
    (h0 : 0 ≤ val) (h1 : val ≤ 100) (data : String) :
    0 ≤ update_progress d val data ∧ update_progress d val data ≤ 100 := by
  cases ht : elapsedOf data with
  | some t =>
    rw [update_progress_time val ht hd]
    have htn : 0 ≤ t := elapsedOf_nonneg ht
    exact ⟨le_min (pyInt_nonneg (by positivity)) (by norm_num),
      min_le_right _ _⟩
  | none =>
    rw [update_progress_none val ht]
    split
    · split <;> omega
    · omega

/-- With the unknown-duration sentinel, one step never pushes the value
past 95. -/
lemma update_progress_zero_le {val : ℤ} (h : val ≤ 95) (data : String) :
    update_progress 0 val data ≤ 95 := by
  rw [update_progress_zero]
  split
  · split <;> omega
  · omega

/-! ## Trace lemmas -/

/-- Every value of a sentinel-duration trace started at or below 95 stays
at or below 95. -/
lemma progressTrace_zero_le {val : ℤ} (h : val ≤ 95) (chunks : List String) :
    ∀ v ∈ progressTrace 0 val chunks, v ≤ 95 := by
  induction chunks generalizing val with
  | nil => simp [progressTrace]
  | cons c cs ih =>
    intro v hv
    rw [progressTrace] at hv
    rcases List.mem_cons.mp hv with h1 | h1
    · exact h1 ▸ update_progress_zero_le h c
    · exact ih (update_progress_zero_le h c) v h1

/-- With a known duration, every value of a trace started inside `[0, 100]`
stays inside `[0, 100]`. -/
lemma progressTrace_mem_bounds {d : ℚ} (hd : 0 < d) {val : ℤ}
    (h0 : 0 ≤ val) (h1 : val ≤ 100) (chunks : List String) :
    ∀ v ∈ progressTrace d val chunks, 0 ≤ v ∧ v ≤ 100 := by
  induction chunks generalizing val with
  | nil => simp [progressTrace]
  | cons c cs ih =>
    intro v hv
    rw [progressTrace] at hv
    have hstep := update_progress_mem hd h0 h1 c
    rcases List.mem_cons.mp hv with h2 | h2
    · exact h2 ▸ hstep
    · exact ih hstep.1 hstep.2 v h2

/-- When every chunk carries a parsable timestamp and the duration is known,
the trace is the pointwise time-derived percent, independent of the starting
value. -/
lemma progressTrace_time_eq {d : ℚ} (hd : 0 < d) {chunks : List String}
    {ts : List ℚ} (hts : chunks.map elapsedOf = ts.map some) (val : ℤ) :
    progressTrace d val chunks
      = ts.map (fun t => min (pyInt (t / d * 100)) 100) := by
  induction chunks generalizing ts val with
  | nil => cases ts <;> simp_all [progressTrace]
  | cons c cs ih =>
    cases ts with
    | nil => simp at hts
    | cons t ts' =>
      simp only [List.map_cons, List.cons.injEq] at hts
      rw [progressTrace, List.map_cons]
      rw [update_progress_time val hts.1 hd]
      exact congrArg _ (ih hts.2 _)

/-- Nonnegative timestamps listed in non-decreasing order yield
non-decreasing time-derived percents. -/
lemma chain_timePercent {d : ℚ} (hd : 0 < d) {ts : List ℚ}
    (h0 : ∀ t ∈ ts, 0 ≤ t) (hc : ts.Chain' (· ≤ ·)) :
    (ts.map (fun t => min (pyInt (t / d * 100)) 100)).Chain' (· ≤ ·) := by
  induction ts with
  | nil => simp
  | cons t ts ih =>
    cases ts with
    | nil => simp
    | cons u us =>
      rw [List.chain'_cons] at hc
      have htail := ih (fun x hx => h0 x (List.mem_cons_of_mem t hx)) hc.2
      rw [List.map_cons] at htail
      rw [List.map_cons, List.map_cons, List.chain'_cons]
      exact ⟨timePercent_mono hd (h0 t (by simp)) hc.1, htail⟩

/-! ## Structure-field preservation lemmas -/

/-- Re-deriving the default output path never touches the name field. -/
lemma update_default_output_path_name (st : AppState) :
    (update_default_output_path st).output_name = st.output_name := by
  unfold update_default_output_path
  split <;> rfl

/-- Re-deriving the default output path never touches the video path. -/
lemma update_default_output_path_video (st : AppState) :
    (update_default_output_path st).video_path = st.video_path := by
  unfold update_default_output_path
  split <;> rfl

/-- Selecting a video always records exactly the given path. -/
lemma set_video_path_video (st : AppState) (path : String) :
    (set_video_path st path).video_path = path := by
  simp only [set_video_path]
  split <;> split <;>
    first
      | rw [update_default_output_path_video]
      | rfl

/-- The output-name field after a video selection: replaced by the fresh
default exactly when it was empty or ended in `_mux.mp4`. -/
lemma set_video_path_output_name (st : AppState) (path : String) :
    (set_video_path st path).output_name
      = if st.output_name = "" ∨ pyEndsWith st.output_name "_mux.mp4" = true
        then default_output_name path else st.output_name := by
  simp only [set_video_path]
  split <;> split <;> simp_all [update_default_output_path_name]

/-- Resolved form of `update_default_output_path` when a video is selected. -/
lemma update_default_output_path_eq {st : AppState} (h : st.video_path ≠ "") :
    (update_default_output_path st).output_path
      = joinPath (dirname st.video_path)
          (if pyStrip st.output_name = "" then default_output_name st.video_path
           else pyStrip st.output_name) := by
  unfold update_default_output_path
  rw [if_pos h]

/-! ## Claim C9 — duration probe failure fallback -/

/-- Claim C9: the duration probe returns the sentinel `0` on any process
failure (spawn failure such as a missing tool, or nonzero exit) and on any
parse failure (non-numeric output); the blanket `except` in the source makes
the embedded function total, so no error propagates. -/
theorem C9_probe_fallback :
    (get_total_duration none = 0)
    ∧ (∀ res : ProcResult, res.returncode ≠ 0 →
        get_total_duration (some res) = 0)
    ∧ (∀ res : ProcResult, parsePyFloat (pyStrip res.stdout) = none →
        get_total_duration (some res) = 0) := by
  refine ⟨rfl, ?_, ?_⟩
  · intro res h
    unfold get_total_duration
    dsimp only
    rw [if_neg h]
  · intro res h
    unfold get_total_duration
    dsimp only
    rw [h]
    split <;> rfl

/-- Witness for C9: a nonzero-exit run and an `N/A` stdout both give `0`. -/
theorem C9_witness :
    get_total_duration (some ⟨1, "120.0"⟩) = 0
    ∧ get_total_duration (some ⟨0, "N/A"⟩) = 0 :=
  ⟨C9_probe_fallback.2.1 ⟨1, "120.0"⟩ (by decide),
   C9_probe_fallback.2.2 ⟨0, "N/A"⟩ (by decide)⟩

/-! ## Claim C10 — progress forced to 100 on process exit -/

/-- Claim C10: when the child process finishes and the progress dialog
exists, the progress value is set to `100` before the exit code is even
read, so a nonzero exit (including a killed, cancelled child) also ends at
exactly `100`. -/
theorem C10_finish_forces_100 (oldVal exitCode : ℤ) (errText outPath : String) :
    (process_finished true oldVal exitCode errText outPath).progressValue
      = 100 := rfl

/-! ## Claim C3 — cancellation outcome -/

/-- Counterexample to claim C3: killing the child on cancellation makes it
exit nonzero (here `9`), and `process_finished` then reports the generic
`failed` outcome with the FFmpeg error text — not the claimed distinct
`cancelled` terminal outcome. -/
theorem C3_counterexample :
    cancel_mux ProcState.running = (ProcState.notRunning, true)
    ∧ terminalOutcome 9 "killed" "/d/out.mp4" = Outcome.failed "killed"
    ∧ terminalOutcome 9 "killed" "/d/out.mp4" ≠ Outcome.cancelled := by
  decide

/-- Claim C3 (amended): cancelling a running job kills the child (it is not
running afterward) and shows the "cancelled" notification, but the finish
handler then reports the killed child's nonzero exit as the `failed`
outcome carrying the FFmpeg error text; no distinct `cancelled` terminal
outcome is produced. -/
theorem C3_amended (code : ℤ) (err p : String) (hc : code ≠ 0) :
    cancel_mux ProcState.running = (ProcState.notRunning, true)
    ∧ terminalOutcome code err p = Outcome.failed err := by
  refine ⟨by decide, ?_⟩
  unfold terminalOutcome
  rw [if_neg hc]

/-- Witness for C3 (amended) at exit code 9. -/
theorem C3_witness :
    cancel_mux ProcState.running = (ProcState.notRunning, true)
    ∧ terminalOutcome 9 "boom" "/o.mp4" = Outcome.failed "boom" :=
  C3_amended 9 "boom" "/o.mp4" (by decide)

/-! ## Concrete stderr chunks used in the progress claims -/

/-- Parsed timestamp of the §8 scenario chunk (one minute elapsed). -/
lemma search_scenario :
    searchTime "time=00:01:00.00 bitrate=1k speed=2x".data = some (0, 1, 0) := by
  with_unfolding_all rfl

/-- Parsed elapsed time of a 59.5-second chunk. -/
lemma elapsed_c59 :
    elapsedOf "time=00:00:59.50 bitrate= 748.2kbits/s" = some (119 / 2) := by
  with_unfolding_all rfl

/-- Parsed elapsed time of a 0.1-second chunk. -/
lemma elapsed_tc01 :
    elapsedOf "time=00:00:00.10 bitrate=N/A" = some (1 / 10) := by
  with_unfolding_all rfl

/-- Parsed elapsed time of a 30-second chunk. -/
lemma elapsed_c30 :
    elapsedOf "time=00:00:30.00 bitrate=1k" = some 30 := by
  with_unfolding_all rfl

/-- Parsed elapsed time of a 60-second chunk. -/
lemma elapsed_c60 :
    elapsedOf "time=00:01:00.00 bitrate=1k" = some 60 := by
  with_unfolding_all rfl

/-- A pure heartbeat chunk parses no timestamp. -/
lemma elapsed_hb1 :
    elapsedOf "frame=  1 fps=0.0 q=0.0 size=0kB" = none := rfl

/-! ## Claim C1 — time-based percent formula -/

/-- Percent formula exactly as the specification words it:
`clamp(round(elapsed / duration * 100), 0, 100)`.  Stated only for
comparison with the code's `update_progress`. -/
def specClaimPercent (elapsed duration : ℚ) : ℤ :=
  max 0 (min (round (elapsed / duration * 100)) 100)

/-- Counterexample to claim C1: on a chunk reporting 59.5 elapsed seconds
with duration 120, the code computes `int(59.5 / 120 * 100) = 49` (Python
`int()` truncates), while the claimed `clamp(round(...), 0, 100)` is `50`. -/
theorem C1_counterexample :
    update_progress 120 0 "time=00:00:59.50 bitrate= 748.2kbits/s" = 49
    ∧ specClaimPercent (119 / 2) 120 = 50
    ∧ update_progress 120 0 "time=00:00:59.50 bitrate= 748.2kbits/s"
        ≠ specClaimPercent (119 / 2) 120 := by
  have h1 : update_progress 120 0 "time=00:00:59.50 bitrate= 748.2kbits/s"
      = 49 := by
    with_unfolding_all rfl
  have h2 : specClaimPercent (119 / 2) 120 = 50 := by
    with_unfolding_all rfl
  refine ⟨h1, h2, ?_⟩
  rw [h1, h2]
  decide

/-- Claim C1 (amended): while a job is running with probed duration > 0,
every chunk whose text contains a `time=H:M:S.frac` timestamp sets
`percent = clamp(floor(elapsed / duration * 100), 0, 100)` where
`elapsed = H * 3600 + M * 60 + S.frac` — `floor` (Python `int()`
truncation), not `round`; for duration 120 a chunk containing
`time=00:01:00.00` still yields percent 50. -/
theorem C1_time_percent {d : ℚ} {data : String} {h m : ℕ} {s : ℚ} (val : ℤ)
    (hp : searchTime data.data = some (h, m, s)) (hd : 0 < d) :
    update_progress d val data
      = max 0 (min ⌊((h : ℚ) * 3600 + (m : ℚ) * 60 + s) / d * 100⌋ 100) := by
  have hs : 0 ≤ s := searchTime_nonneg hp
  have helnn : 0 ≤ (h : ℚ) * 3600 + (m : ℚ) * 60 + s := by positivity
  have hel : elapsedOf data = some ((h : ℚ) * 3600 + (m : ℚ) * 60 + s) := by
    unfold elapsedOf
    rw [hp]
  have harg : 0 ≤ ((h : ℚ) * 3600 + (m : ℚ) * 60 + s) / d * 100 :=
    mul_nonneg (div_nonneg helnn hd.le) (by norm_num)
  rw [update_progress_time val hel hd, pyInt_eq_floor harg]
  rw [max_eq_right (le_min (Int.le_floor.mpr (by exact_mod_cast harg))
    (by norm_num))]

/-- Witness for C1 (amended): the §8 scenario — duration 120, a chunk
containing `time=00:01:00.00` — yields percent 50. -/
theorem C1_witness :
    update_progress 120 7 "time=00:01:00.00 bitrate=1k speed=2x" = 50 := by
  rw [@C1_time_percent 120 "time=00:01:00.00 bitrate=1k speed=2x"
    0 1 0 7 search_scenario (by norm_num)]
  with_unfolding_all rfl

/-! ## Claim C2 — heartbeat policy under the unknown-duration sentinel -/

/-- Claim C2: with the probed duration unknown (sentinel 0), a chunk
recognized as a heartbeat (`frame=` marker, no parsable timestamp) advances
the percent by exactly one point while it is below 95 and leaves it
unchanged from 95 on; whatever the chunks, a value at or below 95 never
exceeds 95 before the terminal event; and from 0, three successive
heartbeat chunks raise the percent 0→1→2→3. -/
theorem C2_heartbeat :
    (∀ (val : ℤ) (data : String),
      containsSub "frame=".data data.data = true → elapsedOf data = none →
      (val < 95 → update_progress 0 val data = val + 1)
      ∧ (95 ≤ val → update_progress 0 val data = val))
    ∧ (∀ (val : ℤ) (chunks : List String), val ≤ 95 →
        ∀ v ∈ progressTrace 0 val chunks, v ≤ 95)
    ∧ progressTrace 0 0
        ["frame=  1 fps=0.0 q=0.0 size=0kB",
         "frame=  2 fps=0.0 q=0.0 size=0kB",
         "frame=  3 fps=0.0 q=0.0 size=0kB"] = [1, 2, 3] := by
  refine ⟨?_, ?_, rfl⟩
  · intro val data h1 h2
    rw [update_progress_none val h2, if_pos h1]
    constructor
    · intro hlt
      rw [if_pos hlt]
    · intro hge
      rw [if_neg (by omega)]
  · intro val chunks h
    exact progressTrace_zero_le h chunks

/-- Witness for C2: a concrete heartbeat chunk advances 7 to 8. -/
theorem C2_witness :
    update_progress 0 7 "frame=  1 fps=0.0 q=0.0 size=0kB" = 7 + 1 :=
  (C2_heartbeat.1 7 "frame=  1 fps=0.0 q=0.0 size=0kB" rfl
    elapsed_hb1).1 (by omega)

/-! ## Claim C5 — monotonicity and range of reported percents -/

/-- Counterexample to claim C5: with duration 120 a heartbeat-only chunk
bumps the value to 1, and a following chunk whose timestamp is a mere 0.1
seconds drops it back to 0 — the reported sequence `[1, 0]` is not
monotonically non-decreasing, because the code never compares a new percent
against the previous one. -/
theorem C5_counterexample :
    progressTrace 120 0
      ["frame=  1 fps=0.0 q=0.0 size=0kB",
       "time=00:00:00.10 bitrate=N/A"] = [1, 0]
    ∧ ¬ (progressTrace 120 0
      ["frame=  1 fps=0.0 q=0.0 size=0kB",
       "time=00:00:00.10 bitrate=N/A"]).Chain' (· ≤ ·) := by
  have htr : progressTrace 120 0
      ["frame=  1 fps=0.0 q=0.0 size=0kB",
       "time=00:00:00.10 bitrate=N/A"] = [1, 0] := by
    with_unfolding_all rfl
  refine ⟨htr, ?_⟩
  intro hchain
  rw [htr, List.chain'_cons] at hchain
  omega

/-- Claim C5 (amended): with a known positive duration every reported
percent lies within `[0, 100]`, and the reported sequence is monotonically
non-decreasing provided every chunk carries a parsable timestamp and those
timestamps are themselves non-decreasing — the code does not enforce
monotonicity on its own (see the counterexample, where a heartbeat bump
precedes a small timestamp). -/
theorem C5_progress_bounds :
    (∀ (d : ℚ) (chunks : List String), 0 < d →
      ∀ v ∈ progressTrace d 0 chunks, 0 ≤ v ∧ v ≤ 100)
    ∧ (∀ (d : ℚ) (chunks : List String) (ts : List ℚ), 0 < d →
        chunks.map elapsedOf = ts.map some → ts.Chain' (· ≤ ·) →
        (progressTrace d 0 chunks).Chain' (· ≤ ·)) := by
  constructor
  · intro d chunks hd
    exact progressTrace_mem_bounds hd le_rfl (by norm_num) chunks
  · intro d chunks ts hd hts hc
    rw [progressTrace_time_eq hd hts 0]
    refine chain_timePercent hd ?_ hc
    intro t htm
    have hmem : some t ∈ chunks.map elapsedOf := by
      rw [hts]
      exact List.mem_map_of_mem some htm
    rcases List.mem_map.mp hmem with ⟨c, -, hc2⟩
    exact elapsedOf_nonneg hc2

/-- Witness for C5 (amended): a concrete two-chunk run with increasing
timestamps (30 s then 60 s) at duration 120 — its reported values are in
range and non-decreasing. -/
theorem C5_witness :
    ((0 : ℤ) ≤ 25 ∧ (25 : ℤ) ≤ 100)
    ∧ (progressTrace 120 0
        ["time=00:00:30.00 bitrate=1k", "time=00:01:00.00 bitrate=1k"]).Chain'
        (· ≤ ·) := by
  have htr : progressTrace 120 0 ["time=00:00:30.00 bitrate=1k"] = [25] := by
    with_unfolding_all rfl
  refine ⟨?_, ?_⟩
  · refine C5_progress_bounds.1 120 ["time=00:00:30.00 bitrate=1k"]
      (by norm_num) 25 ?_
    rw [htr]
    exact List.mem_singleton_self 25
  · refine C5_progress_bounds.2 120 _ [30, 60] (by norm_num) ?_ ?_
    · with_unfolding_all rfl
    · simp only [List.chain'_cons, List.chain'_singleton, and_true]
      norm_num

/-! ## Claim C4 — output-name overwrite heuristic -/

/-- Counterexample to claim C4: a name the user typed that happens to end in
`_mux.mp4` (here `special_mux.mp4`) IS silently overwritten when a different
video is selected — the code checks only the textual suffix of the field,
not whether its content was auto-derived or user-typed. -/
theorem C4_counterexample :
    (set_video_path ⟨"/v/old.mp4", "", "", "special_mux.mp4", true, "/v"⟩
      "/v/other.mp4").output_name = "other_mux.mp4"
    ∧ ("special_mux.mp4" : String) ≠ "other_mux.mp4" := by
  constructor
  · with_unfolding_all rfl
  · decide

/-- Claim C4 (amended): selecting a new video replaces the output-name field
with the fresh default exactly when the field is empty or its text ends in
`_mux.mp4`, whether or not the user typed that text; a name not ending in
`_mux.mp4` is never overwritten by re-selecting a different video. -/
theorem C4_name_heuristic :
    (∀ (st : AppState) (path : String), st.output_name ≠ "" →
      pyEndsWith st.output_name "_mux.mp4" = false →
      (set_video_path st path).output_name = st.output_name)
    ∧ (∀ (st : AppState) (path : String),
        st.output_name = "" ∨ pyEndsWith st.output_name "_mux.mp4" = true →
        (set_video_path st path).output_name = default_output_name path) := by
  constructor
  · intro st path h1 h2
    rw [set_video_path_output_name, if_neg (by simp [h1, h2])]
  · intro st path h
    rw [set_video_path_output_name, if_pos h]

/-- Witness for C4 (amended): a custom name without the suffix survives a
new video selection; an empty field receives the fresh default. -/
theorem C4_witness :
    (set_video_path ⟨"/v/old.mp4", "", "", "My Cut.mp4", true, "/v"⟩
      "/v/other.mp4").output_name = "My Cut.mp4"
    ∧ (set_video_path ⟨"/v/old.mp4", "", "", "", true, "/v"⟩
      "/v/other.mp4").output_name = default_output_name "/v/other.mp4" :=
  ⟨C4_name_heuristic.1 _ "/v/other.mp4" (by decide) (by decide),
   C4_name_heuristic.2 _ "/v/other.mp4" (Or.inl rfl)⟩

/-! ## Claim C6 — explicit output choice wins -/

/-- With the save toggle off, selecting a video leaves the output path and
the toggle untouched. -/
lemma set_video_path_toggle_off (st : AppState) (h : st.save_toggle = false)
    (path : String) :
    (set_video_path st path).output_path = st.output_path
    ∧ (set_video_path st path).save_toggle = false := by
  simp only [set_video_path]
  split <;> simp [h]

/-- With the save toggle off, re-typing the name field leaves the output
path untouched. -/
lemma update_output_name_toggle_off (st : AppState) (h : st.save_toggle = false)
    (text : String) :
    (update_output_name st text).output_path = st.output_path := by
  simp only [update_output_name]
  simp [h]

/-- With the save toggle off, mux-time resolution returns the stored path. -/
lemma mux_output_path_toggle_off (st : AppState) (h : st.save_toggle = false) :
    mux_output_path st = st.output_path := by
  simp only [mux_output_path]
  rw [h]
  simp

/-- Claim C6: when the explicit save mode is active (the "save beside
video" toggle is off) and a concrete path was chosen through the save
dialog, mux-time resolution returns that path unchanged, and neither a
subsequent video selection nor re-typing the name field modifies it. -/
theorem C6_explicit_wins (st : AppState) (p v t : String)
    (h : st.save_toggle = false) :
    (set_video_path (select_output st (some p)) v).output_path = p
    ∧ (update_output_name (select_output st (some p)) t).output_path = p
    ∧ mux_output_path (select_output st (some p)) = p
    ∧ mux_output_path (set_video_path (select_output st (some p)) v) = p := by
  have h0 : (select_output st (some p)).save_toggle = false := h
  have h0p : (select_output st (some p)).output_path = p := rfl
  have a1 := set_video_path_toggle_off (select_output st (some p)) h0 v
  refine ⟨a1.1.trans h0p, (update_output_name_toggle_off _ h0 t).trans h0p,
    (mux_output_path_toggle_off _ h0).trans h0p, ?_⟩
  rw [mux_output_path_toggle_off _ a1.2, a1.1, h0p]

/-- Witness for C6: a concrete explicitly chosen path survives selecting a
new video. -/
theorem C6_witness :
    (set_video_path
      (select_output ⟨"/v/a.mp4", "/w/b.wav", "", "x.mp4", false, "/v"⟩
        (some "/e/custom.mp4")) "/v/new.mov").output_path = "/e/custom.mp4"
    ∧ mux_output_path
        (set_video_path
          (select_output ⟨"/v/a.mp4", "/w/b.wav", "", "x.mp4", false, "/v"⟩
            (some "/e/custom.mp4")) "/v/new.mov") = "/e/custom.mp4" :=
  ⟨(C6_explicit_wins _ "/e/custom.mp4" "/v/new.mov" "t" rfl).1,
   (C6_explicit_wins ⟨"/v/a.mp4", "/w/b.wav", "", "x.mp4", false, "/v"⟩
     "/e/custom.mp4" "/v/new.mov" "t" rfl).2.2.2⟩

/-! ## Claim C7 — input validation on video selection -/

/-- Counterexample to claim C7: the selection code never checks file
existence.  The path `ghost.mp4` stands for a file that does not exist;
its extension is accepted, so dropping it replaces the prior selection all
the same — none of the embedded definitions consults any file system, so
the result cannot depend on whether the file exists. -/
theorem C7_counterexample :
    (drop_set_video ⟨"/v/old.mp4", "", "", "", false, "/v"⟩
      ["ghost.mp4"]).video_path = "ghost.mp4"
    ∧ ("ghost.mp4" : String) ≠ "/v/old.mp4" := by
  constructor
  · with_unfolding_all rfl
  · decide

/-- Claim C7 (amended): a drop whose paths' lowercased names all lack an
accepted video extension (`.mp4`/`.mov`) is rejected with the prior
selection state left entirely unchanged (the `notes.txt` scenario); a path
with an accepted extension is always accepted — no file-existence check is
performed at selection time. -/
theorem C7_drop_validation :
    (∀ (st : AppState) (files : List String),
      (∀ f ∈ files, hasAllowedExt accepted_video_exts f = false) →
      drop_set_video st files = st)
    ∧ (∀ (st : AppState) (f : String),
        hasAllowedExt accepted_video_exts f = true →
        (drop_set_video st [f]).video_path = f) := by
  constructor
  · intro st files h
    unfold drop_set_video
    have hfil : files.filter (hasAllowedExt accepted_video_exts) = [] := by
      rw [List.filter_eq_nil_iff]
      intro f hf
      simp [h f hf]
    rw [hfil]
    rfl
  · intro st f h
    unfold drop_set_video
    have hfil : [f].filter (hasAllowedExt accepted_video_exts) = [f] := by
      simp [h]
    rw [hfil]
    exact set_video_path_video st f

/-- Witness for C7 (amended): `notes.txt` is rejected leaving a populated
prior state untouched, while an upper-case `.MOV` drop is accepted. -/
theorem C7_witness :
    drop_set_video ⟨"/v/old.mp4", "/w/b.wav", "/v/out.mp4", "out.mp4", true, "/v"⟩
      ["notes.txt"]
      = ⟨"/v/old.mp4", "/w/b.wav", "/v/out.mp4", "out.mp4", true, "/v"⟩
    ∧ (drop_set_video ⟨"", "", "", "", true, ""⟩ ["CLIP2.MOV"]).video_path
        = "CLIP2.MOV" :=
  ⟨C7_drop_validation.1 _ ["notes.txt"] (by decide),
   C7_drop_validation.2 _ "CLIP2.MOV" (by decide)⟩

/-! ## Claim C8 — default name and beside-video resolution -/

/-- Counterexample to claim C8: the output-name field text is stripped of
surrounding whitespace before being joined, so for the stored file name
` a.mp4` the resolved path is `join(dir, "a.mp4")`, not the claimed
`join(videoDirectory, fileName)`. -/
theorem C8_counterexample :
    (update_default_output_path
      ⟨"/d/v.mp4", "", "", " a.mp4", true, "/d"⟩).output_path = "/d/a.mp4"
    ∧ joinPath (dirname "/d/v.mp4") " a.mp4" = "/d/ a.mp4"
    ∧ (update_default_output_path
        ⟨"/d/v.mp4", "", "", " a.mp4", true, "/d"⟩).output_path
        ≠ joinPath (dirname "/d/v.mp4") " a.mp4" := by
  refine ⟨?_, ?_, ?_⟩
  · with_unfolding_all rfl
  · with_unfolding_all rfl
  · decide

/-- Claim C8 (amended): the derived default output name is
`<video-stem>_mux.mp4` (for `/media/clip.mp4` it is `clip_mux.mp4`), and in
"save beside video" mode selecting a video resolves the output path to
`join(videoDirectory, strip(fileName) or derived default)` — the stored
name is whitespace-stripped first and the derived default is used when the
stripped name is empty. -/
theorem C8_beside_video :
    default_output_name "/media/clip.mp4" = "clip_mux.mp4"
    ∧ (∀ v : String, pyEndsWith (default_output_name v) "_mux.mp4" = true)
    ∧ (∀ (st : AppState) (v : String), st.save_toggle = true → v ≠ "" →
        (set_video_path st v).output_path
          = joinPath (dirname v)
              (if pyStrip ((set_video_path st v).output_name) = ""
               then default_output_name v
               else pyStrip ((set_video_path st v).output_name))) := by
  refine ⟨by with_unfolding_all rfl, ?_, ?_⟩
  · intro v
    simp only [pyEndsWith, default_output_name, List.isSuffixOf_iff_suffix]
    exact List.suffix_append _ _
  · intro st v htog hv
    have hred : set_video_path st v
        = update_default_output_path
            ⟨v, st.audio_path, st.output_path,
             if st.output_name = "" ∨ pyEndsWith st.output_name "_mux.mp4" = true
             then default_output_name v else st.output_name,
             st.save_toggle, dirname v⟩ := by
      simp only [set_video_path]
      split <;> simp_all
    rw [hred, update_default_output_path_name, update_default_output_path_eq hv]

/-- Witness for C8 (amended): the resolution law at a fresh state selecting
`/media/clip.mp4`. -/
theorem C8_witness :
    (set_video_path ⟨"", "", "", "", true, ""⟩ "/media/clip.mp4").output_path
      = joinPath (dirname "/media/clip.mp4")
          (if pyStrip ((set_video_path ⟨"", "", "", "", true, ""⟩
              "/media/clip.mp4").output_name) = ""
           then default_output_name "/media/clip.mp4"
           else pyStrip ((set_video_path ⟨"", "", "", "", true, ""⟩
              "/media/clip.mp4").output_name)) :=
  C8_beside_video.2.2 ⟨"", "", "", "", true, ""⟩ "/media/clip.mp4" rfl
    (by decide)

end Muxer
